import Mathlib

/-!
Verification of the client-side POS frontend business logic: the category
hierarchy resolver, the variant matrix generator, the cart aggregator and the
proportional-pricing helper.  Each definition is a shallow embedding of the
corresponding TypeScript function; JavaScript numbers are modelled as
rationals, optional string fields as `Option String`, and a rejected
operation (an early `return` that leaves component state untouched) as
`none`.
-/

namespace POS

/-- A category node: `{id, name, level, subCategories}` from `API/types.ts`.
`parentId` is never read by the logic under verification and is omitted. -/
inductive Category : Type where
  | mk (id : String) (name : String) (level : Int) (subCategories : List Category)
deriving Repr

def Category.id : Category → String
  | .mk i _ _ _ => i

def Category.name : Category → String
  | .mk _ n _ _ => n

def Category.level : Category → Int
  | .mk _ _ l _ =>  l

def Category.subCategories : Category → List Category
  | .mk _ _ _ subs => subs

/-- A product variant: `ProductVariant` from `API/types.ts`. -/
structure ProductVariant where
  id : String
  color : Option String
  ram : Option String
  storage : Option String
  purchasedPrice : ℚ
  sellingPrice : ℚ
  stock : ℚ
deriving Repr, DecidableEq

/-- The slice of `Product` (from `API/types.ts`) read by the logic under
verification: identifiers, name, the three category reference fields and the
variant list. -/
structure Product where
  mongoId : Option String
  jsId : Option String
  name : String
  mainCategory : String
  subCategory : Option String
  subSubCategory : Option String
  variants : List ProductVariant
deriving Repr

/-- A cart line: `{productId, name, price, quantity}` from `layout.tsx`. -/
structure CartItem where
  productId : String
  name : String
  price : ℚ
  quantity : ℚ
deriving Repr, DecidableEq

/-- JavaScript truthiness of an optional string: `undefined` and the empty
string are falsy. -/
def jsTruthy : Option String → Bool
  | none => false
  | some s => s ≠ ""

/-- JavaScript `a || b` on optional strings: returns `a` when truthy,
otherwise `b`. -/
def jsOr (a b : Option String) : Option String :=
  if jsTruthy a then a else b

/-- Embeds `product._id || product.id`, the identifier resolution used by the cart
code in `layout.tsx`. -/
def Product.resolvedId (p : Product) : Option String :=
  jsOr p.mongoId p.jsId

/-! ### Category hierarchy resolver (unnamed/part_001, `isProductInCategory`) -/

/-- The inner `findCategory` closure of `isProductInCategory`: depth-first
search for the node whose `id` equals `categoryId`; a hit in a node is
returned before its siblings, and a node is checked before its subtree. -/
def findCategory (categoryId : String) : List Category → Option Category
  | [] => none
  | Category.mk i n l subs :: cs =>
    if i = categoryId then some (Category.mk i n l subs)
    else
      match findCategory categoryId subs with
      | some found => some found
      | none => findCategory categoryId cs

mutual

/-- The inner `isInHierarchy` closure of `isProductInCategory`: true when one
of the three category fields of the product equals the id of this node, or recursively
matches some subcategory. -/
def isInHierarchy (product : Product) : Category → Bool
  | Category.mk i _ _ subs =>
    product.mainCategory = i || product.subCategory = some i ||
      product.subSubCategory = some i || isInHierarchyList product subs

/-- Embeds `category.subCategories?.some(isInHierarchy) || false`. -/
def isInHierarchyList (product : Product) : List Category → Bool
  | [] => false
  | c :: cs => isInHierarchy product c || isInHierarchyList product cs

end

/-- Embeds `isProductInCategory(product, categoryId)` from `unnamed/part_001`,
with the `categories` state of the surrounding component passed explicitly. -/
def isProductInCategory (product : Product) (categoryId : String)
    (categories : List Category) : Bool :=
  if categoryId = "" then true
  else if product.mainCategory = categoryId then true
  else if product.subCategory = some categoryId then true
  else if product.subSubCategory = some categoryId then true
  else
    match findCategory categoryId categories with
    | none => false
    | some selectedCategory => isInHierarchy product selectedCategory

mutual

/-- All ids in the subtree of a category: the id of the node itself followed by the ids of
all its descendants, in document order. -/
def subtreeIds : Category → List String
  | Category.mk i _ _ subs => i :: subtreeIdsList subs

def subtreeIdsList : List Category → List String
  | [] => []
  | c :: cs => subtreeIds c ++ subtreeIdsList cs

end

mutual

/-- Pre-order (document order) traversal of one category subtree. -/
def preorder : Category → List Category
  | Category.mk i n l subs => Category.mk i n l subs :: preorderList subs

/-- Pre-order traversal of a forest, left to right. -/
def preorderList : List Category → List Category
  | [] => []
  | c :: cs => preorder c ++ preorderList cs

end

/-- The `flatten` closure of `getAvailableParentCategories` in
`categories/manage/page.tsx`: walks the forest accumulating every node whose
`level` equals `targetLevel`, visiting each node before its subtree. -/
def flattenAtLevel : List Category → Int → List Category
  | [], _ => []
  | Category.mk i n l subs :: cs, targetLevel =>
    (if l = targetLevel then [Category.mk i n l subs] else []) ++
      flattenAtLevel subs targetLevel ++ flattenAtLevel cs targetLevel

/-- Embeds `getAvailableParentCategories(level)` from `categories/manage/page.tsx`:
empty for level 1, otherwise all nodes one level shallower. -/
def getAvailableParentCategories (categories : List Category) (level : Int) :
    List Category :=
  if level = 1 then [] else flattenAtLevel categories (level - 1)

/-! ### Cart aggregator (`layout.tsx`: `addToCart`, `updateQuantity`) -/

/-- Embeds `addToCart(product)` from `layout.tsx`, with the cart state passed
explicitly.  `none` models an early return (a rejection toast) that leaves
the cart unchanged; a `some` result models `setCart` being called. -/
def addToCart (cart : List CartItem) (product : Product) :
    Option (List CartItem) :=
  match product.resolvedId with
  | none => none
  | some productId =>
    if productId = "" then none
    else
      match product.variants.head? with
      | none => none
      | some defaultVariant =>
        let existingItem := cart.find? fun item => item.productId = productId
        let currentQuantity := match existingItem with
          | some item => item.quantity
          | none => 0
        if currentQuantity ≥ defaultVariant.stock then none
        else
          match existingItem with
          | some _ =>
            some (cart.map fun item =>
              if item.productId = productId then
                { item with quantity := item.quantity + 1 }
              else item)
          | none =>
            some (cart ++ [{ productId := productId, name := product.name,
                             price := defaultVariant.sellingPrice,
                             quantity := 1 }])

/-- Embeds `updateQuantity(productId, quantity)` from `layout.tsx`, with the cart
and product-list state passed explicitly.  `none` models an early return
that leaves the cart unchanged. -/
def updateQuantity (cart : List CartItem) (products : List Product)
    (productId : String) (quantity : ℚ) : Option (List CartItem) :=
  if quantity < 1 then none
  else
    let product := products.find? fun p => p.resolvedId = some productId
    let defaultVariant := product.bind fun p => p.variants.head?
    match defaultVariant with
    | some v =>
      if quantity > v.stock then none
      else
        some (cart.map fun item =>
          if item.productId = productId then { item with quantity := quantity }
          else item)
    | none =>
      some (cart.map fun item =>
        if item.productId = productId then { item with quantity := quantity }
        else item)

/-! ### Variant matrix generator (unnamed/part_002: `generateVariants`,
`updateVariant`) -/

/-- One id fragment: JavaScript `color && color-x27...x27` — falsy (absent or
empty) axis values contribute nothing. -/
def tagPart (tag : String) : Option String → Option String
  | none => none
  | some s => if s = "" then none else some (tag ++ s)

/-- The id built inside `addVariant`: the present axis tags joined with a
dash, in color, ram, storage order, or the literal default marker when no
tag is present. -/
def variantId (color ram storage : Option String) : String :=
  match [tagPart "color-" color, tagPart "ram-" ram,
         tagPart "storage-" storage].filterMap id with
  | [] => "default"
  | parts => String.intercalate "-" parts

/-- The `addVariant` closure: a fresh variant for one axis combination with
stock 0 and the form-level prices. -/
def mkVariant (color ram storage : Option String)
    (purchasedPrice sellingPrice : ℚ) : ProductVariant :=
  { id := variantId color ram storage, color := color, ram := ram,
    storage := storage, purchasedPrice := purchasedPrice,
    sellingPrice := sellingPrice, stock := 0 }

/-- Embeds `generateVariants(colors, rams, storages)` from `unnamed/part_002`, with
the form-level prices read by `watch` passed explicitly.  The nested
`forEach`/`if` ladder of the source is translated branch for branch. -/
def generateVariants (colors rams storages : List String)
    (purchasedPrice sellingPrice : ℚ) : List ProductVariant :=
  if colors.length = 0 ∧ rams.length = 0 ∧ storages.length = 0 then
    [{ id := "default", color := none, ram := none, storage := none,
       purchasedPrice := purchasedPrice, sellingPrice := sellingPrice,
       stock := 0 }]
  else if colors.length > 0 then
    colors.flatMap fun color =>
      if rams.length > 0 then
        rams.flatMap fun ram =>
          if storages.length > 0 then
            storages.map fun storage =>
              mkVariant (some color) (some ram) (some storage)
                purchasedPrice sellingPrice
          else
            [mkVariant (some color) (some ram) none purchasedPrice sellingPrice]
      else if storages.length > 0 then
        storages.map fun storage =>
          mkVariant (some color) none (some storage) purchasedPrice sellingPrice
      else
        [mkVariant (some color) none none purchasedPrice sellingPrice]
  else if rams.length > 0 then
    rams.flatMap fun ram =>
      if storages.length > 0 then
        storages.map fun storage =>
          mkVariant none (some ram) (some storage) purchasedPrice sellingPrice
      else
        [mkVariant none (some ram) none purchasedPrice sellingPrice]
  else if storages.length > 0 then
    storages.map fun storage =>
      mkVariant none none (some storage) purchasedPrice sellingPrice
  else
    []

/-- The three mutable numeric fields of a variant. -/
inductive VariantField : Type where
  | purchasedPrice
  | sellingPrice
  | stock
deriving Repr, DecidableEq

/-- Embeds the spread update `{ ...variant, [field]: value }`. -/
def setField (v : ProductVariant) : VariantField → ℚ → ProductVariant
  | .purchasedPrice, x => { v with purchasedPrice := x }
  | .sellingPrice, x => { v with sellingPrice := x }
  | .stock, x => { v with stock := x }

/-- Embeds `updateVariant(variantId, field, value)` from `unnamed/part_002`, with
the variant-list state passed explicitly. -/
def updateVariant (variants : List ProductVariant) (variantId : String)
    (field : VariantField) (value : ℚ) : List ProductVariant :=
  variants.map fun variant =>
    if variant.id = variantId then setField variant field value else variant

/-! ### Proportional pricing (`API/products.ts`:
`updateProportionalPricing`) -/

/-- JavaScript `Math.round`: nearest integer, halves toward positive
infinity. -/
def jsRound (x : ℚ) : ℤ := ⌊x + 1 / 2⌋

/-- The PATCH body sent by `updateProportionalPricing`. -/
structure PricingPatch where
  purchasedPrice : ℚ
  sellingPrice : ℚ
deriving Repr, DecidableEq

/-- Embeds `updateProportionalPricing(id, purchasedPrice, profitMargin)` from
`API/products.ts`: the body of the partial update it sends. -/
def updateProportionalPricing (purchasedPrice profitMargin : ℚ) :
    PricingPatch :=
  let sellingPrice := purchasedPrice * (1 + profitMargin / 100)
  { purchasedPrice := purchasedPrice,
    sellingPrice := (jsRound (sellingPrice * 100) : ℚ) / 100 }

/-- Modelled from the spec: "multiply by 100, round to nearest integer,
divide by 100" — the description of `round2` given by the spec, kept separate from
the source embedding so the two can be compared. -/
def round2Spec (x : ℚ) : ℚ := (jsRound (x * 100) : ℚ) / 100

/-- The `currentQuantity` local of `addToCart`: the quantity of the cart
line for `productId`, or 0 when there is no such line. -/
def currentQuantity (cart : List CartItem) (productId : String) : ℚ :=
  match cart.find? fun item => item.productId = productId with
  | some item => item.quantity
  | none => 0

/-! ### Sample data used by witnesses and counterexamples -/

/-- A single default variant with one unit of stock. -/
def sampleVariant : ProductVariant :=
  { id := "default", color := none, ram := none, storage := none,
    purchasedPrice := 5, sellingPrice := 7, stock := 1 }

/-- A product with one variant (stock 1) and a server-side id. -/
def sampleProduct : Product :=
  { mongoId := some "p1", jsId := none, name := "Phone",
    mainCategory := "c1", subCategory := none, subSubCategory := none,
    variants := [sampleVariant] }

/-- The cart line produced by adding `sampleProduct` to an empty cart. -/
def sampleCartItem : CartItem :=
  { productId := "p1", name := "Phone", price := 7, quantity := 1 }

/-- A product with no variants at all. -/
def emptyVariantsProduct : Product :=
  { mongoId := some "p2", jsId := none, name := "Widget",
    mainCategory := "c1", subCategory := none, subSubCategory := none,
    variants := [] }

/-- A product whose `mainCategory` references the id `x`, which need not be
in any category tree. -/
def orphanProduct : Product :=
  { mongoId := some "p3", jsId := none, name := "Orphan",
    mainCategory := "x", subCategory := none, subSubCategory := none,
    variants := [] }

/-- A product filed under the level-2 category `b`. -/
def subCatProduct : Product :=
  { mongoId := some "p4", jsId := none, name := "Nested",
    mainCategory := "b", subCategory := none, subSubCategory := none,
    variants := [] }

/-- Leaf `b` sitting under root `a`. -/
def sampleNode : Category := Category.mk "a" "A" 1 [Category.mk "b" "B" 2 []]

/-- A one-root category tree: `a` with child `b`. -/
def sampleTree : List Category := [sampleNode]

/-! ### Helper lemmas -/

/-- Length of a `flatMap` whose inner lists all have the same length. -/
theorem length_flatMap_const {α β : Type} (l : List α) (f : α → List β)
    (n : ℕ) (h : ∀ a, (f a).length = n) :
    (l.flatMap f).length = l.length * n := by
  induction l with
  | nil => simp
  | cons a t ih =>
    simp only [List.flatMap_cons, List.length_append, List.length_cons, h, ih]
    ring

mutual

/-- If a category field of the product occurs among the ids of the subtree
rooted at `c`, the recursive hierarchy check succeeds on `c`. -/
theorem isInHierarchy_of_mem (p : Product) (c : Category)
    (h : p.mainCategory ∈ subtreeIds c ∨
      (∃ s, p.subCategory = some s ∧ s ∈ subtreeIds c) ∨
      (∃ s, p.subSubCategory = some s ∧ s ∈ subtreeIds c)) :
    isInHierarchy p c = true :=
  match c with
  | Category.mk i n l subs => by
    simp only [subtreeIds, List.mem_cons] at h
    simp only [isInHierarchy, Bool.or_eq_true, decide_eq_true_eq]
    rcases h with (rfl | hm) | ⟨s, hs, (rfl | hm)⟩ | ⟨s, hs, (rfl | hm)⟩
    · exact Or.inl (Or.inl (Or.inl rfl))
    · exact Or.inr (isInHierarchyList_of_mem p subs (Or.inl hm))
    · exact Or.inl (Or.inl (Or.inr hs))
    · exact Or.inr (isInHierarchyList_of_mem p subs (Or.inr (Or.inl ⟨s, hs, hm⟩)))
    · exact Or.inl (Or.inr hs)
    · exact Or.inr (isInHierarchyList_of_mem p subs (Or.inr (Or.inr ⟨s, hs, hm⟩)))

/-- Forest version of `isInHierarchy_of_mem`. -/
theorem isInHierarchyList_of_mem (p : Product) (cs : List Category)
    (h : p.mainCategory ∈ subtreeIdsList cs ∨
      (∃ s, p.subCategory = some s ∧ s ∈ subtreeIdsList cs) ∨
      (∃ s, p.subSubCategory = some s ∧ s ∈ subtreeIdsList cs)) :
    isInHierarchyList p cs = true :=
  match cs with
  | [] => by
    simp only [subtreeIdsList, List.not_mem_nil] at h
    rcases h with h | ⟨s, _, h⟩ | ⟨s, _, h⟩ <;> exact absurd h (by simp)
  | c :: cs => by
    simp only [subtreeIdsList, List.mem_append] at h
    simp only [isInHierarchyList, Bool.or_eq_true]
    rcases h with (hm | hm) | ⟨s, hs, (hm | hm)⟩ | ⟨s, hs, (hm | hm)⟩
    · exact Or.inl (isInHierarchy_of_mem p c (Or.inl hm))
    · exact Or.inr (isInHierarchyList_of_mem p cs (Or.inl hm))
    · exact Or.inl (isInHierarchy_of_mem p c (Or.inr (Or.inl ⟨s, hs, hm⟩)))
    · exact Or.inr (isInHierarchyList_of_mem p cs (Or.inr (Or.inl ⟨s, hs, hm⟩)))
    · exact Or.inl (isInHierarchy_of_mem p c (Or.inr (Or.inr ⟨s, hs, hm⟩)))
    · exact Or.inr (isInHierarchyList_of_mem p cs (Or.inr (Or.inr ⟨s, hs, hm⟩)))

end

/-- A search for an id that occurs nowhere in the forest fails. -/
theorem findCategory_eq_none (cid : String) :
    ∀ cs : List Category, cid ∉ subtreeIdsList cs → findCategory cid cs = none
  | [], _ => by simp [findCategory]
  | Category.mk i n l subs :: cs, h => by
    simp only [subtreeIdsList, subtreeIds, List.mem_append, List.mem_cons] at h
    push_neg at h
    obtain ⟨⟨hne, hsubs⟩, hcs⟩ := h
    simp only [findCategory]
    rw [if_neg fun hh => hne hh.symm, findCategory_eq_none cid subs hsubs,
      findCategory_eq_none cid cs hcs]

/-- The level filter walks the forest in document order: it equals a filter
of the pre-order traversal. -/
theorem flattenAtLevel_eq_filter :
    ∀ (cats : List Category) (lvl : Int),
      flattenAtLevel cats lvl =
        (preorderList cats).filter fun c => c.level = lvl
  | [], _ => by simp [flattenAtLevel, preorderList]
  | Category.mk i n l subs :: cs, lvl => by
    simp only [flattenAtLevel, preorderList, preorder, List.filter_append,
      List.filter_cons, flattenAtLevel_eq_filter subs lvl,
      flattenAtLevel_eq_filter cs lvl, Category.level]
    by_cases hl : l = lvl
    · simp [hl]
    · simp [hl]

/-- Every generated variant has stock 0, carries the form-level prices, and
has the id derived from its own axis values. -/
theorem mem_generateVariants {colors rams storages : List String} {pp sp : ℚ}
    {v : ProductVariant} (hv : v ∈ generateVariants colors rams storages pp sp) :
    v.stock = 0 ∧ v.purchasedPrice = pp ∧ v.sellingPrice = sp ∧
      v.id = variantId v.color v.ram v.storage := by
  unfold generateVariants at hv
  split at hv
  · simp only [List.mem_singleton] at hv
    subst hv
    exact ⟨rfl, rfl, rfl, rfl⟩
  · split at hv
    · simp only [List.mem_flatMap] at hv
      obtain ⟨color, -, hv⟩ := hv
      split at hv
      · simp only [List.mem_flatMap] at hv
        obtain ⟨ram, -, hv⟩ := hv
        split at hv
        · simp only [List.mem_map] at hv
          obtain ⟨st, -, rfl⟩ := hv
          exact ⟨rfl, rfl, rfl, rfl⟩
        · simp only [List.mem_singleton] at hv
          subst hv
          exact ⟨rfl, rfl, rfl, rfl⟩
      · split at hv
        · simp only [List.mem_map] at hv
          obtain ⟨st, -, rfl⟩ := hv
          exact ⟨rfl, rfl, rfl, rfl⟩
        · simp only [List.mem_singleton] at hv
          subst hv
          exact ⟨rfl, rfl, rfl, rfl⟩
    · split at hv
      · simp only [List.mem_flatMap] at hv
        obtain ⟨ram, -, hv⟩ := hv
        split at hv
        · simp only [List.mem_map] at hv
          obtain ⟨st, -, rfl⟩ := hv
          exact ⟨rfl, rfl, rfl, rfl⟩
        · simp only [List.mem_singleton] at hv
          subst hv
          exact ⟨rfl, rfl, rfl, rfl⟩
      · split at hv
        · simp only [List.mem_map] at hv
          obtain ⟨st, -, rfl⟩ := hv
          exact ⟨rfl, rfl, rfl, rfl⟩
        · simp only [List.not_mem_nil] at hv

/-! ### Claim theorems -/

/-- C1 (counterexample): the claim as stated is false.  The id `x` is
non-empty and occurs nowhere in the empty category tree, yet
`isProductInCategory` returns true for a product whose `mainCategory` is
`x`, because the three direct field comparisons run before the tree is
searched. -/
theorem isProductInCategory_not_in_tree_cex :
    ("x" : String) ≠ "" ∧ "x" ∉ subtreeIdsList ([] : List Category) ∧
      isProductInCategory orphanProduct "x" [] = true := by
  refine ⟨by decide, by simp [subtreeIdsList], by decide⟩

/-- C1 (amended): for every non-empty categoryId that occurs nowhere in the
tree AND differs from all three of the category fields of the product,
`isProductInCategory` returns false. -/
theorem isProductInCategory_not_in_tree (product : Product)
    (categoryId : String) (categories : List Category)
    (hne : categoryId ≠ "") (hmem : categoryId ∉ subtreeIdsList categories)
    (h1 : product.mainCategory ≠ categoryId)
    (h2 : product.subCategory ≠ some categoryId)
    (h3 : product.subSubCategory ≠ some categoryId) :
    isProductInCategory product categoryId categories = false := by
  simp only [isProductInCategory]
  rw [if_neg hne, if_neg h1, if_neg h2, if_neg h3,
    findCategory_eq_none categoryId categories hmem]

/-- C1 witness: the amended theorem applied at a concrete input. -/
theorem isProductInCategory_not_in_tree_witness :
    isProductInCategory sampleProduct "z" sampleTree = false :=
  isProductInCategory_not_in_tree sampleProduct "z" sampleTree (by decide)
    (by simp [sampleTree, sampleNode, subtreeIdsList, subtreeIds])
    (by decide) (by decide) (by decide)

/-- C3: when the depth-first search locates a node for `categoryId` and one
of the three category fields of the product equals that node or one of its
descendants, `isProductInCategory` returns true. -/
theorem isProductInCategory_descendant (product : Product)
    (categoryId : String) (categories : List Category) (c : Category)
    (hfind : findCategory categoryId categories = some c)
    (hmatch : product.mainCategory ∈ subtreeIds c ∨
      (∃ s, product.subCategory = some s ∧ s ∈ subtreeIds c) ∨
      (∃ s, product.subSubCategory = some s ∧ s ∈ subtreeIds c)) :
    isProductInCategory product categoryId categories = true := by
  simp only [isProductInCategory]
  by_cases h0 : categoryId = ""
  · rw [if_pos h0]
  rw [if_neg h0]
  by_cases h1 : product.mainCategory = categoryId
  · rw [if_pos h1]
  rw [if_neg h1]
  by_cases h2 : product.subCategory = some categoryId
  · rw [if_pos h2]
  rw [if_neg h2]
  by_cases h3 : product.subSubCategory = some categoryId
  · rw [if_pos h3]
  rw [if_neg h3, hfind]
  exact isInHierarchy_of_mem product c hmatch

/-- C3 witness: a product filed under level-2 category `b` is found when
filtering by the ancestor category `a`. -/
theorem isProductInCategory_descendant_witness :
    isProductInCategory subCatProduct "a" sampleTree = true :=
  isProductInCategory_descendant subCatProduct "a" sampleTree sampleNode
    (by simp [sampleTree, sampleNode, findCategory])
    (Or.inl (by simp [sampleNode, subCatProduct, subtreeIds, subtreeIdsList]))

/-- C5: the PATCH body sent by `updateProportionalPricing` carries
`sellingPrice = purchasedPrice * (1 + profitMargin / 100)` rounded to two
decimals by multiplying by 100, rounding to the nearest integer and dividing
by 100; at purchasedPrice 100 and profitMargin 25 the result is exactly
125. -/
theorem updateProportionalPricing_spec (pp m : ℚ) :
    (updateProportionalPricing pp m).sellingPrice =
      round2Spec (pp * (1 + m / 100)) ∧
    (updateProportionalPricing pp m).purchasedPrice = pp ∧
    (updateProportionalPricing 100 25).sellingPrice = 125 := by
  refine ⟨rfl, rfl, ?_⟩
  show (jsRound ((100 : ℚ) * (1 + 25 / 100) * 100) : ℚ) / 100 = 125
  norm_num [jsRound]

/-- C6: with all three axis lists empty, `generateVariants` produces exactly
one variant: no axis values, id `default`, stock 0 and the provided default
prices. -/
theorem generateVariants_all_empty (pp sp : ℚ) :
    generateVariants [] [] [] pp sp =
      [{ id := "default", color := none, ram := none, storage := none,
         purchasedPrice := pp, sellingPrice := sp, stock := 0 }] := by
  simp [generateVariants]

/-- C9: `flattenAtLevel` returns exactly the nodes whose `level` equals the
target level, in pre-order document order (it is the filter of the pre-order
traversal), and the parent-candidate list for a new level-1 category is
empty. -/
theorem flattenAtLevel_spec :
    (∀ (cats : List Category) (lvl : Int),
      flattenAtLevel cats lvl =
        (preorderList cats).filter fun c => c.level = lvl) ∧
    ∀ cats : List Category, getAvailableParentCategories cats 1 = [] :=
  ⟨flattenAtLevel_eq_filter, fun _ => rfl⟩

/-- C2: with at least one axis list non-empty, `generateVariants` produces
exactly the Cartesian product over the non-empty axis lists (an empty list
contributes no dimension): the number of variants is the product of the
sizes of the non-empty lists, every variant has stock 0, the form-level
prices and an id joining its present axis tags in color, ram, storage
order; in particular two colors and one storage with no rams yield exactly
the two variants `color-Red-storage-128GB` then `color-Blue-storage-128GB`,
colors as the outer loop. -/
theorem generateVariants_cartesian (colors rams storages : List String)
    (pp sp : ℚ) (h : ¬(colors = [] ∧ rams = [] ∧ storages = [])) :
    (generateVariants colors rams storages pp sp).length =
      (if colors = [] then 1 else colors.length) *
        ((if rams = [] then 1 else rams.length) *
          (if storages = [] then 1 else storages.length)) ∧
    (∀ v ∈ generateVariants colors rams storages pp sp,
      v.stock = 0 ∧ v.purchasedPrice = pp ∧ v.sellingPrice = sp ∧
        v.id = variantId v.color v.ram v.storage) ∧
    (generateVariants ["Red", "Blue"] [] ["128GB"] pp sp).map
        ProductVariant.id =
      ["color-Red-storage-128GB", "color-Blue-storage-128GB"] := by
  refine ⟨?_, fun v hv => mem_generateVariants hv, rfl⟩
  by_cases hc : colors = [] <;> by_cases hr : rams = [] <;>
    by_cases hs : storages = []
  · exact absurd ⟨hc, hr, hs⟩ h
  · subst hc; subst hr
    have hsp : 0 < storages.length := List.length_pos.mpr hs
    have hsz : storages.length ≠ 0 := Nat.pos_iff_ne_zero.mp hsp
    simp only [generateVariants, gt_iff_lt, hsp, hsz, hs, List.length_nil,
      if_true, if_false, ite_true, ite_false, and_false, false_and,
      and_true, true_and, not_false_eq_true, lt_self_iff_false]
    rw [List.length_map]
    ring
  · subst hc; subst hs
    have hrp : 0 < rams.length := List.length_pos.mpr hr
    have hrz : rams.length ≠ 0 := Nat.pos_iff_ne_zero.mp hrp
    simp only [generateVariants, gt_iff_lt, hrp, hrz, hr, List.length_nil,
      if_true, if_false, ite_true, ite_false, and_false, false_and,
      and_true, true_and, not_false_eq_true, lt_self_iff_false]
    have hlen := length_flatMap_const rams
      (fun ram => [mkVariant none (some ram) none pp sp]) 1 fun r => rfl
    rw [hlen]
    ring
  · subst hc
    have hrp : 0 < rams.length := List.length_pos.mpr hr
    have hrz : rams.length ≠ 0 := Nat.pos_iff_ne_zero.mp hrp
    have hsp : 0 < storages.length := List.length_pos.mpr hs
    have hsz : storages.length ≠ 0 := Nat.pos_iff_ne_zero.mp hsp
    simp only [generateVariants, gt_iff_lt, hrp, hrz, hsp, hsz, hr, hs,
      List.length_nil, if_true, if_false, ite_true, ite_false, and_false,
      false_and, and_true, true_and, not_false_eq_true, lt_self_iff_false]
    have hlen := length_flatMap_const rams
      (fun ram => storages.map fun storage =>
        mkVariant none (some ram) (some storage) pp sp)
      storages.length fun r => List.length_map storages _
    rw [hlen]
    ring
  · subst hr; subst hs
    have hcp : 0 < colors.length := List.length_pos.mpr hc
    have hcz : colors.length ≠ 0 := Nat.pos_iff_ne_zero.mp hcp
    simp only [generateVariants, gt_iff_lt, hcp, hcz, hc, List.length_nil,
      if_true, if_false, ite_true, ite_false, and_false, false_and,
      and_true, true_and, not_false_eq_true, lt_self_iff_false]
    have hlen := length_flatMap_const colors
      (fun color => [mkVariant (some color) none none pp sp]) 1 fun c => rfl
    rw [hlen]
  · subst hr
    have hcp : 0 < colors.length := List.length_pos.mpr hc
    have hcz : colors.length ≠ 0 := Nat.pos_iff_ne_zero.mp hcp
    have hsp : 0 < storages.length := List.length_pos.mpr hs
    have hsz : storages.length ≠ 0 := Nat.pos_iff_ne_zero.mp hsp
    simp only [generateVariants, gt_iff_lt, hcp, hcz, hsp, hsz, hc, hs,
      List.length_nil, if_true, if_false, ite_true, ite_false, and_false,
      false_and, and_true, true_and, not_false_eq_true, lt_self_iff_false]
    have hlen := length_flatMap_const colors
      (fun color => storages.map fun storage =>
        mkVariant (some color) none (some storage) pp sp)
      storages.length fun c => List.length_map storages _
    rw [hlen]
    ring
  · subst hs
    have hcp : 0 < colors.length := List.length_pos.mpr hc
    have hcz : colors.length ≠ 0 := Nat.pos_iff_ne_zero.mp hcp
    have hrp : 0 < rams.length := List.length_pos.mpr hr
    have hrz : rams.length ≠ 0 := Nat.pos_iff_ne_zero.mp hrp
    simp only [generateVariants, gt_iff_lt, hcp, hcz, hrp, hrz, hc, hr,
      List.length_nil, if_true, if_false, ite_true, ite_false, and_false,
      false_and, and_true, true_and, not_false_eq_true, lt_self_iff_false]
    have hlen := length_flatMap_const colors
      (fun color => rams.flatMap fun ram =>
        [mkVariant (some color) (some ram) none pp sp])
      (rams.length * 1) fun c =>
        length_flatMap_const rams _ 1 fun r => rfl
    rw [hlen]
  · have hcp : 0 < colors.length := List.length_pos.mpr hc
    have hcz : colors.length ≠ 0 := Nat.pos_iff_ne_zero.mp hcp
    have hrp : 0 < rams.length := List.length_pos.mpr hr
    have hrz : rams.length ≠ 0 := Nat.pos_iff_ne_zero.mp hrp
    have hsp : 0 < storages.length := List.length_pos.mpr hs
    have hsz : storages.length ≠ 0 := Nat.pos_iff_ne_zero.mp hsp
    simp only [generateVariants, gt_iff_lt, hcp, hcz, hrp, hrz, hsp, hsz,
      hc, hr, hs, if_true, if_false, ite_true, ite_false, and_false,
      false_and, and_true, true_and, not_false_eq_true, lt_self_iff_false]
    have hlen := length_flatMap_const colors
      (fun color => rams.flatMap fun ram => storages.map fun storage =>
        mkVariant (some color) (some ram) (some storage) pp sp)
      (rams.length * storages.length) fun c =>
        length_flatMap_const rams _ storages.length fun r =>
          List.length_map storages _
    rw [hlen]

/-- C2 witness: the theorem applied at two colors, no rams, one storage:
exactly 2 variants are generated. -/
theorem generateVariants_cartesian_witness :
    (generateVariants ["Red", "Blue"] [] ["128GB"] 5 7).length = 2 := by
  have h :=
    (generateVariants_cartesian ["Red", "Blue"] [] ["128GB"] 5 7 (by simp)).1
  simpa using h

/-- C8: `updateVariant` preserves length and order; the variant whose id
matches gets exactly the requested field set to the value, and every
variant with a different id is unchanged in all fields. -/
theorem updateVariant_spec (variants : List ProductVariant) (vid : String)
    (field : VariantField) (value : ℚ) :
    (updateVariant variants vid field value).length = variants.length ∧
    (∀ (i : ℕ) (v : ProductVariant), variants[i]? = some v →
      (v.id = vid → (updateVariant variants vid field value)[i]? =
        some (setField v field value)) ∧
      (v.id ≠ vid → (updateVariant variants vid field value)[i]? = some v)) ∧
    (∀ v : ProductVariant,
      (setField v field value).id = v.id ∧
      (setField v field value).color = v.color ∧
      (setField v field value).ram = v.ram ∧
      (setField v field value).storage = v.storage ∧
      (field = VariantField.purchasedPrice →
        setField v field value = { v with purchasedPrice := value }) ∧
      (field = VariantField.sellingPrice →
        setField v field value = { v with sellingPrice := value }) ∧
      (field = VariantField.stock →
        setField v field value = { v with stock := value })) := by
  refine ⟨List.length_map _ _, ?_, ?_⟩
  · intro i v hv
    constructor
    · intro hid
      rw [updateVariant, List.getElem?_map, hv]
      simp [hid]
    · intro hid
      rw [updateVariant, List.getElem?_map, hv]
      simp [hid]
  · intro v
    cases field <;> simp [setField]

/-- C8 witness: setting the stock of the only variant by id. -/
theorem updateVariant_spec_witness :
    (updateVariant [sampleVariant] "default" VariantField.stock 5)[0]? =
      some (setField sampleVariant VariantField.stock 5) :=
  ((updateVariant_spec [sampleVariant] "default" VariantField.stock 5).2.1 0
    sampleVariant rfl).1 rfl

/-- C4: with the first variant of stock `v.stock`: an existing cart line is
incremented by 1 exactly when its quantity is below the stock, otherwise
the add is rejected; with no existing line a quantity-1 line is appended
exactly when the stock is positive, otherwise the add is rejected; and
adding the same stock-1 product twice rejects the second add, the cart
keeping one line of quantity 1. -/
theorem addToCart_spec (cart : List CartItem) (product : Product)
    (pid : String) (v : ProductVariant)
    (hpid : product.resolvedId = some pid) (hpe : pid ≠ "")
    (hv : product.variants.head? = some v) :
    (∀ item, (cart.find? fun it => it.productId = pid) = some item →
      (item.quantity < v.stock → addToCart cart product =
        some (cart.map fun it =>
          if it.productId = pid then { it with quantity := it.quantity + 1 }
          else it)) ∧
      (v.stock ≤ item.quantity → addToCart cart product = none)) ∧
    ((cart.find? fun it => it.productId = pid) = none →
      (0 < v.stock → addToCart cart product =
        some (cart ++ [{ productId := pid, name := product.name,
                         price := v.sellingPrice, quantity := 1 }])) ∧
      (v.stock ≤ 0 → addToCart cart product = none)) ∧
    (addToCart [] sampleProduct = some [sampleCartItem] ∧
      addToCart [sampleCartItem] sampleProduct = none) := by
  refine ⟨?_, ?_, by decide, by decide⟩
  · intro item hfind
    have hbase : addToCart cart product =
        if v.stock ≤ item.quantity then none
        else some (cart.map fun it =>
          if it.productId = pid then { it with quantity := it.quantity + 1 }
          else it) := by
      simp only [addToCart, hpid, hv, hfind, ge_iff_le]
      rw [if_neg hpe]
    constructor
    · intro hlt
      rw [hbase, if_neg (not_le.mpr hlt)]
    · intro hge
      rw [hbase, if_pos hge]
  · intro hfind
    have hbase : addToCart cart product =
        if v.stock ≤ 0 then none
        else some (cart ++ [{ productId := pid, name := product.name,
                              price := v.sellingPrice, quantity := 1 }]) := by
      simp only [addToCart, hpid, hv, hfind, ge_iff_le]
      rw [if_neg hpe]
    constructor
    · intro hpos
      rw [hbase, if_neg (not_le.mpr hpos)]
    · intro hle
      rw [hbase, if_pos hle]

/-- C4 witness: adding a stock-1 product to the empty cart appends one line
of quantity 1. -/
theorem addToCart_spec_witness :
    addToCart [] sampleProduct = some [sampleCartItem] := by
  have h := addToCart_spec [] sampleProduct "p1" sampleVariant rfl
    (by decide) rfl
  have h2 := (h.2.1 rfl).1 (by decide)
  rw [h2]
  decide

/-- C7: with the product present in the list and owning a first variant
`v`, `updateQuantity` rejects (cart unchanged) exactly when the quantity is
below 1 or above the stock of `v`; otherwise it sets the matching line to
the given quantity, leaving every other line unchanged. -/
theorem updateQuantity_spec (cart : List CartItem) (products : List Product)
    (productId : String) (quantity : ℚ) (p : Product) (v : ProductVariant)
    (hp : (products.find? fun q => q.resolvedId = some productId) = some p)
    (hv : p.variants.head? = some v) :
    (updateQuantity cart products productId quantity = none ↔
      quantity < 1 ∨ v.stock < quantity) ∧
    (1 ≤ quantity → quantity ≤ v.stock →
      updateQuantity cart products productId quantity =
        some (cart.map fun item =>
          if item.productId = productId then { item with quantity := quantity }
          else item)) := by
  have hbase : updateQuantity cart products productId quantity =
      if quantity < 1 then none
      else if v.stock < quantity then none
      else some (cart.map fun item =>
        if item.productId = productId then { item with quantity := quantity }
        else item) := by
    simp only [updateQuantity, hp, Option.some_bind, hv, gt_iff_lt]
  constructor
  · rw [hbase]
    by_cases h1 : quantity < 1
    · simp [h1]
    · by_cases h2 : v.stock < quantity
      · simp [h1, h2]
      · simp [h1, h2]
  · intro hq1 hq2
    rw [hbase, if_neg (not_lt.mpr hq1), if_neg (not_lt.mpr hq2)]

/-- C7 witness: quantity 1 with stock 1 is accepted and replaces the line
quantity. -/
theorem updateQuantity_spec_witness :
    updateQuantity [sampleCartItem] [sampleProduct] "p1" 1 =
      some [sampleCartItem] := by
  have h := updateQuantity_spec [sampleCartItem] [sampleProduct] "p1" 1
    sampleProduct sampleVariant rfl rfl
  have h2 := h.2 (by norm_num) (by decide)
  rw [h2]
  decide

/-- C10: `addToCart` consults only the first variant: a product with an
empty variants list is always rejected with the cart unchanged; replacing
the variant list by its first element alone never changes the result; and
(for a resolvable product id) the rejection bound is the stock of the first
variant while an appended line always carries its selling price. -/
theorem addToCart_first_variant_only (cart : List CartItem)
    (product : Product) :
    (product.variants = [] → addToCart cart product = none) ∧
    (∀ v rest, product.variants = v :: rest →
      addToCart cart product =
        addToCart cart { product with variants := [v] }) ∧
    (∀ v rest pid, product.variants = v :: rest →
      product.resolvedId = some pid → pid ≠ "" →
      ((addToCart cart product = none ↔
        v.stock ≤ currentQuantity cart pid) ∧
       ((cart.find? fun it => it.productId = pid) = none →
        currentQuantity cart pid < v.stock →
        addToCart cart product =
          some (cart ++ [{ productId := pid, name := product.name,
                           price := v.sellingPrice, quantity := 1 }])))) := by
  refine ⟨?_, ?_, ?_⟩
  · intro he
    cases hr : product.resolvedId with
    | none => simp [addToCart, hr]
    | some pid =>
      by_cases hpe : pid = "" <;> simp [addToCart, hr, he, hpe]
  · intro v rest hvr
    obtain ⟨mid, jid, nm, mc, sc, ssc, vars⟩ := product
    replace hvr : vars = v :: rest := hvr
    subst hvr
    rfl
  · intro v rest pid hvr hpid hpe
    have hv : product.variants.head? = some v := by rw [hvr]; rfl
    have hbase : addToCart cart product =
        if v.stock ≤ currentQuantity cart pid then none
        else match cart.find? fun it => it.productId = pid with
          | some _ => some (cart.map fun it =>
              if it.productId = pid then
                { it with quantity := it.quantity + 1 }
              else it)
          | none =>
            some (cart ++ [CartItem.mk pid product.name v.sellingPrice 1]) := by
      simp only [addToCart, hpid, hv, ge_iff_le, currentQuantity]
      rw [if_neg hpe]
    constructor
    · rw [hbase]
      by_cases hcond : v.stock ≤ currentQuantity cart pid
      · simp [hcond]
      · rw [if_neg hcond]
        constructor
        · intro hcontra
          cases hfind : cart.find? fun it => it.productId = pid <;>
            simp [hfind] at hcontra
        · intro hc
          exact absurd hc hcond
    · intro hfind hlt
      rw [hbase, if_neg (not_le.mpr hlt), hfind]

/-- C10 witness: a product with no variants is rejected. -/
theorem addToCart_first_variant_only_witness :
    addToCart [] emptyVariantsProduct = none :=
  (addToCart_first_variant_only [] emptyVariantsProduct).1 rfl

end POS
